import Mathlib

/-!
# Verification of `refwrap` (src/refwrap/phenix.py)

Shallow embedding of the single source file `src/refwrap/phenix.py`.

The file wraps the external program `phenix.refine`:
* `PhenixParams` — a dataclass with one field `number_of_macrocycles : int = 3`
  and a `format` method producing the command-line flag list;
* `RefinementStats` — two floats `r_work`, `r_free`, extracted from a log
  text by the Python regular expression
  `R-work\s*=\s*([0-9.]+).*?R-free\s*=\s*([0-9.]+)` via `re.search`;
* `phenixrefine` — runs the external command in a temporary directory,
  checks the return code, copies the log to a hardcoded absolute path,
  asserts three output files exist, reads them and parses the log.

The regular-expression semantics (leftmost search, greedy `[0-9.]+` with
backtracking, lazy `.*?`, `.` not matching a newline because `re.DOTALL`
is not set) is embedded as an executable specialized matcher below.
Numeric values of Python `float(...)` conversions are modelled exactly as
rationals (`ℚ`): the regex character class `[0-9.]+` only produces
unsigned decimal strings, whose exact value is rational; IEEE conversion
preserves the sign, which is all the claims about the values need.
-/

namespace Refwrap

/-- Python `\s` on the ASCII range: space, tab, newline, carriage return,
vertical tab, form feed.  (The log text handled by the program is ASCII;
the Unicode extension of `\s` is not modelled.) -/
def isPySpace (c : Char) : Bool :=
  c = ' ' || c = '\t' || c = '\n' || c = '\r' || c = '\x0b' || c = '\x0c'

/-- The character class `[0-9.]` of the pattern. -/
def isDigitDot (c : Char) : Bool :=
  c.isDigit || c = '.'

/-- Match a literal string at the head of the input, returning the rest. -/
def stripLit : List Char → List Char → Option (List Char)
  | [], s => some s
  | _ :: _, [] => none
  | c :: cs, d :: ds => if c = d then stripLit cs ds else none

/-- Match `R-free\s*=\s*([0-9.]+)` at the head of the input, returning the
second capture group.  `\s*` is greedy; since the atom after it (`=`, resp.
`[0-9.]`) is disjoint from `\s`, maximal munch is exactly the backtracking
semantics.  The trailing `([0-9.]+)` ends the pattern, so its greedy
maximal run is the captured text. -/
def matchRfree (s : List Char) : Option (List Char) :=
  match stripLit "R-free".data s with
  | none => none
  | some s1 =>
    match s1.dropWhile isPySpace with
    | '=' :: s3 =>
      let s4 := s3.dropWhile isPySpace
      let g2 := s4.takeWhile isDigitDot
      if g2.isEmpty then none else some g2
    | _ => none

/-- The lazy `.*?` followed by `R-free\s*=\s*([0-9.]+)`: try the tail match
at the current position first (shortest `.*?`), then let `.` consume one
more character — any character except `'\n'`, since `re.DOTALL` is off. -/
def lazyFindRfree : List Char → Option (List Char)
  | [] => matchRfree []
  | c :: rest =>
    match matchRfree (c :: rest) with
    | some g2 => some g2
    | none => if c = '\n' then none else lazyFindRfree rest

/-- Backtracking for the greedy group `([0-9.]+)`: `g1rev` is the reversed
current candidate for group 1 (longest first), `rest` the input after it.
If the continuation `.*?R-free\s*=\s*([0-9.]+)` fails, give one character
of the group back to the continuation, down to the minimal length 1
required by `+`. -/
def tryGroup1 : List Char → List Char → Option (List Char × List Char)
  | g1rev, rest =>
    match lazyFindRfree rest with
    | some g2 => some (g1rev.reverse, g2)
    | none =>
      match g1rev with
      | [] => none
      | [_] => none
      | c :: g1rev' => tryGroup1 g1rev' (c :: rest)

/-- Match the whole pattern `R-work\s*=\s*([0-9.]+).*?R-free\s*=\s*([0-9.]+)`
anchored at the head of the input, returning the two capture groups. -/
def matchHere (s : List Char) : Option (List Char × List Char) :=
  match stripLit "R-work".data s with
  | none => none
  | some s1 =>
    match s1.dropWhile isPySpace with
    | '=' :: s3 =>
      let s4 := s3.dropWhile isPySpace
      let run := s4.takeWhile isDigitDot
      if run.isEmpty then none
      else tryGroup1 run.reverse (s4.dropWhile isDigitDot)
    | _ => none

/-- `re.search` of the fixed pattern: try every start position from the
left, returning the match at the leftmost position where one exists. -/
def reSearchRwRf : List Char → Option (List Char × List Char)
  | [] => matchHere []
  | c :: rest =>
    match matchHere (c :: rest) with
    | some r => some r
    | none => reSearchRwRf rest

/-- Value of a decimal digit string (most significant first). -/
def decVal (s : List Char) : ℕ :=
  s.foldl (fun a c => 10 * a + (c.toNat - 48)) 0

/-- Split a character list at every `'.'` (the behaviour of Python's
`s.split(".")` on the string level). -/
def splitOnDot : List Char → List (List Char)
  | [] => [[]]
  | c :: rest =>
    if c = '.' then [] :: splitOnDot rest
    else
      match splitOnDot rest with
      | [] => [[c]]
      | p :: ps => (c :: p) :: ps

/-- Python `float(s)` restricted to the strings the regex can capture
(nonempty strings over `[0-9.]`): it succeeds exactly when `s` contains at
most one `'.'` and at least one digit, and the exact decimal value is
returned as a rational.  `none` models the `ValueError` that
`float("1.2.3")` or `float(".")` raises. -/
def pyFloatQ (s : String) : Option ℚ :=
  match splitOnDot s.data with
  | [ip] =>
    if ip ≠ [] ∧ ip.all Char.isDigit then some (decVal ip) else none
  | [ip, fp] =>
    if (ip ++ fp) ≠ [] ∧ (ip ++ fp).all Char.isDigit then
      some ((decVal ip : ℚ) + (decVal fp : ℚ) / (10 : ℚ) ^ fp.length)
    else none
  | _ => none

/-- Python exceptions the pure fragment can raise. -/
inductive PyError where
  | valueError (msg : String)
deriving DecidableEq, Repr

/-- `RefinementStats.extract_r_values(text)`: one `re.search` over the full
text; on a match, convert the two captured tokens with `float` (group 1
first, as in the source); if the pattern is absent raise
`ValueError("R values not found in the text.")`. -/
def extract_r_values (text : String) : Except PyError (ℚ × ℚ) :=
  match reSearchRwRf text.data with
  | some (g1, g2) =>
    match pyFloatQ g1.asString with
    | none =>
      .error (.valueError ("could not convert string to float: " ++ g1.asString))
    | some r_work =>
      match pyFloatQ g2.asString with
      | none =>
        .error (.valueError ("could not convert string to float: " ++ g2.asString))
      | some r_free => .ok (r_work, r_free)
  | none => .error (.valueError "R values not found in the text.")

/-- The result record: two quality metrics parsed from the log. -/
structure RefinementStats where
  r_work : ℚ
  r_free : ℚ
deriving DecidableEq, Repr

/-- `RefinementStats.read_from_log`, with the file read modelled by passing
the log file's text. -/
def read_from_log (logtext : String) : Except PyError RefinementStats :=
  match extract_r_values logtext with
  | .error e => .error e
  | .ok (rw, rf) => .ok ⟨rw, rf⟩

/-- The parameter record: `@dataclass class PhenixParams` with the single
field `number_of_macrocycles: int = 3`. -/
structure PhenixParams where
  number_of_macrocycles : Int := 3
deriving DecidableEq, Repr

/-- `PhenixParams.format`: the list
`[f"main.number_of_macro_cycles={self.number_of_macrocycles}"]`. -/
def PhenixParams.format (p : PhenixParams) : List String :=
  ["main.number_of_macro_cycles=" ++ toString p.number_of_macrocycles]

/-! ## The `phenixrefine` wrapper

`phenixrefine` performs I/O: it writes two input files into a fresh
temporary directory, runs the external command there, copies the log to a
hardcoded absolute path, asserts the three output files exist, reads them
and parses the log.  The external world is modelled by `PhenixEnv`
(outcome of the subprocess and which of its output files it produced), and
the call is modelled as a pure function returning the ordered trace of
filesystem/process effects together with the result or the first exception
raised.  The temporary directory is named `"tmpdir"`; paths inside it are
written `"tmpdir/<name>"`. -/

/-- External-world behaviour of one `phenix.refine` subprocess run. -/
structure PhenixEnv where
  returncode : Int
  pdbExists : Bool
  mtzExists : Bool
  logExists : Bool
  logText : String

/-- Observable effects of a `phenixrefine` call, in program order. -/
inductive Effect where
  | writeTmp (name : String)
  | runProcess (cmd : List String) (cwd : String)
  | copyFile (src : String) (dest : String)
  | readTmp (name : String)
  | removeTmpDir
deriving DecidableEq, Repr

/-- Exceptions `phenixrefine` can raise. -/
inductive RefineError where
  | calledProcessError (returncode : Int) (cmd : List String)
  | fileNotFoundError (path : String)
  | assertionError (condition : String)
  | valueError (msg : String)
deriving DecidableEq, Repr

/-- Successful result: the refined structure and reflection data are
modelled by the names of the files they were read from, plus the parsed
stats. -/
structure RefineResult where
  structureFrom : String
  mtzFrom : String
  stats : RefinementStats
deriving DecidableEq, Repr

def input_pdb_name : String := "input.pdb"

def input_mtz_name : String := "input.mtz"

/-- Output file names fixed by the external tool's convention. -/
def refined_pdb_name : String := "input_refine_001.pdb"

def refined_mtz_name : String := "input_refine_001.mtz"

def refinement_log_name : String := "input_refine_001.log"

/-- The hardcoded absolute destination of the `shutil.copy` call. -/
def desktop_path : String := "/Users/tjlane/Desktop"

/-- The command line built in `phenixrefine`:
`["phenix.refine", "input.pdb", "input.mtz", *phenix_params.format()]`. -/
def refineCmd (phenix_params : PhenixParams) : List String :=
  ["phenix.refine", input_pdb_name, input_mtz_name] ++ phenix_params.format

/-- Effects of the part of `phenixrefine` up to and including the
subprocess call: write the two input files, run the command in the
temporary directory. -/
def preTrace (p : PhenixParams) : List Effect :=
  [.writeTmp input_mtz_name, .writeTmp input_pdb_name,
   .runProcess (refineCmd p) "tmpdir"]

/-- The `shutil.copy(tmpdir_path / "input_refine_001.log", "/Users/tjlane/Desktop")`
effect. -/
def copyEff : Effect :=
  .copyFile ("tmpdir/" ++ refinement_log_name) desktop_path

/-- The three output-file reads, in source order. -/
def readEffs : List Effect :=
  [.readTmp refined_pdb_name, .readTmp refined_mtz_name,
   .readTmp refinement_log_name]

/-- `phenixrefine`, step for step:
1. write `input.mtz` and `input.pdb` into the temporary directory;
2. run the command with `check=False`;
3. raise `CalledProcessError(returncode, cmd=cmd)` if the return code is
   nonzero;
4. `shutil.copy` the log file to the hardcoded desktop path — this runs
   *before* the assertions, so a missing log surfaces here as a
   `FileNotFoundError`;
5. assert the three output files exist (in source order pdb, mtz, log; the
   log assertion cannot fail because the copy in step 4 already succeeded);
6. read the three files and parse the log, propagating its `ValueError`s.
The `with tempfile.TemporaryDirectory()` block removes the directory on
every exit path, so every trace ends with `removeTmpDir`. -/
def phenixrefine (env : PhenixEnv) (phenix_params : PhenixParams) :
    List Effect × Except RefineError RefineResult :=
  if env.returncode ≠ 0 then
    (preTrace phenix_params ++ [.removeTmpDir],
      .error (.calledProcessError env.returncode (refineCmd phenix_params)))
  else if ¬ env.logExists then
    (preTrace phenix_params ++ [.removeTmpDir],
      .error (.fileNotFoundError ("tmpdir/" ++ refinement_log_name)))
  else if ¬ env.pdbExists then
    (preTrace phenix_params ++ [copyEff, .removeTmpDir],
      .error (.assertionError "refined_pdb.exists()"))
  else if ¬ env.mtzExists then
    (preTrace phenix_params ++ [copyEff, .removeTmpDir],
      .error (.assertionError "refined_mtz.exists()"))
  else
    match read_from_log env.logText with
    | .error (.valueError msg) =>
      (preTrace phenix_params ++ [copyEff] ++ readEffs ++ [.removeTmpDir],
        .error (.valueError msg))
    | .ok stats =>
      (preTrace phenix_params ++ [copyEff] ++ readEffs ++ [.removeTmpDir],
        .ok ⟨refined_pdb_name, refined_mtz_name, stats⟩)

/-- Classifier: does a `RefineError` belong to the assertion/value-error
family (Python `AssertionError` / `ValueError`)?  A `FileNotFoundError`
(an `OSError`) does not. -/
def isAssertionOrValueError : RefineError → Bool
  | .assertionError _ => true
  | .valueError _ => true
  | _ => false

/-- Classifier: does an effect modify filesystem state outside the
temporary directory?  Only a copy whose destination is not under
`tmpdir/` does. -/
def modifiesOutsideTmp : Effect → Bool
  | .writeTmp _ => false
  | .runProcess _ _ => false
  | .copyFile _ dest => decide (dest.data.take 7 ≠ "tmpdir/".data)
  | .readTmp _ => false
  | .removeTmpDir => false

/-! ## Helper lemmas -/

/-- `reSearchRwRf` returns the match at the leftmost position at which the
pattern matches: every strictly earlier start position fails. -/
theorem reSearch_leftmost {s : List Char} {r : List Char × List Char}
    (h : reSearchRwRf s = some r) :
    ∃ i, matchHere (s.drop i) = some r ∧ ∀ j < i, matchHere (s.drop j) = none := by
  induction s with
  | nil =>
    exact ⟨0, h, fun j hj => absurd hj (Nat.not_lt_zero j)⟩
  | cons c rest ih =>
    rcases hm : matchHere (c :: rest) with _ | r'
    · rw [reSearchRwRf, hm] at h
      obtain ⟨i, hi, hbefore⟩ := ih h
      refine ⟨i + 1, by simpa using hi, fun j hj => ?_⟩
      match j with
      | 0 => simpa using hm
      | k + 1 => simpa using hbefore k (by omega)
    · rw [reSearchRwRf, hm] at h
      cases h
      exact ⟨0, hm, fun j hj => absurd hj (Nat.not_lt_zero j)⟩

/-- A successful `pyFloatQ` conversion is non-negative: the character class
`[0-9.]` admits no sign, so the value is a sum of casts of naturals. -/
theorem pyFloatQ_nonneg {s : String} {q : ℚ} (h : pyFloatQ s = some q) :
    0 ≤ q := by
  unfold pyFloatQ at h
  rcases hs : splitOnDot s.data with _ | ⟨ip, _ | ⟨fp, _ | _⟩⟩ <;> rw [hs] at h <;>
    dsimp only at h
  · exact absurd h (by simp)
  · split at h
    · cases h
      positivity
    · exact absurd h (by simp)
  · split at h
    · cases h
      positivity
    · exact absurd h (by simp)
  · exact absurd h (by simp)

/-- Both components of a successful `extract_r_values` result come from
`pyFloatQ`, hence are non-negative. -/
theorem extract_ok_nonneg {text : String} {a b : ℚ}
    (hx : extract_r_values text = .ok (a, b)) : 0 ≤ a ∧ 0 ≤ b := by
  unfold extract_r_values at hx
  rcases hsr : reSearchRwRf text.data with _ | ⟨g1, g2⟩ <;> rw [hsr] at hx <;>
    dsimp only at hx
  · cases hx
  · rcases h1 : pyFloatQ g1.asString with _ | q1 <;> rw [h1] at hx <;>
      dsimp only at hx
    · cases hx
    · rcases h2 : pyFloatQ g2.asString with _ | q2 <;> rw [h2] at hx <;>
        dsimp only at hx
      · cases hx
      · cases hx
        exact ⟨pyFloatQ_nonneg h1, pyFloatQ_nonneg h2⟩

/-! ## Claims -/

/-- C1: `RefinementStats.extract_r_values` performs a single
regular-expression search over the full text for an `R-work` field
followed by an `R-free` field, and on a match returns the pair of the two
captured numeric tokens converted to floats, taken from the first (i.e.
leftmost) occurrence of the pattern in the text. -/
theorem C1_single_search_first_occurrence (text : String)
    (g1 g2 : List Char) (q1 q2 : ℚ)
    (hs : reSearchRwRf text.data = some (g1, g2))
    (h1 : pyFloatQ g1.asString = some q1)
    (h2 : pyFloatQ g2.asString = some q2) :
    extract_r_values text = .ok (q1, q2) ∧
    ∃ i, matchHere (text.data.drop i) = some (g1, g2) ∧
      ∀ j < i, matchHere (text.data.drop j) = none := by
  refine ⟨?_, reSearch_leftmost hs⟩
  unfold extract_r_values
  rw [hs]
  dsimp only
  rw [h1]
  dsimp only
  rw [h2]

/-- Witness for C1 on the text `"xx R-work = 1 R-free = 2 yy"`. -/
theorem C1_witness :
    extract_r_values "xx R-work = 1 R-free = 2 yy" = .ok (1, 2) ∧
    ∃ i,
      matchHere (("xx R-work = 1 R-free = 2 yy").data.drop i) =
        some ("1".data, "2".data) ∧
      ∀ j < i,
        matchHere (("xx R-work = 1 R-free = 2 yy").data.drop j) = none :=
  C1_single_search_first_occurrence "xx R-work = 1 R-free = 2 yy"
    "1".data "2".data 1 2 (by decide) rfl rfl

/-- C2: when the pattern is absent from the text,
`RefinementStats.extract_r_values` (and hence `read_from_log`) raises
`ValueError("R values not found in the text.")` rather than returning. -/
theorem C2_pattern_absent_raises (text : String)
    (h : reSearchRwRf text.data = none) :
    extract_r_values text =
      .error (.valueError "R values not found in the text.") ∧
    read_from_log text =
      .error (.valueError "R values not found in the text.") := by
  have he : extract_r_values text =
      .error (.valueError "R values not found in the text.") := by
    unfold extract_r_values
    rw [h]
  refine ⟨he, ?_⟩
  unfold read_from_log
  rw [he]

/-- Witness for C2 on a text without the pattern. -/
theorem C2_witness :
    extract_r_values "no r values in this text" =
      .error (.valueError "R values not found in the text.") ∧
    read_from_log "no r values in this text" =
      .error (.valueError "R values not found in the text.") :=
  C2_pattern_absent_raises "no r values in this text" (by decide)

/-- C5: whenever `extract_r_values` / `read_from_log` returns successfully,
both metrics are non-negative (the regex character class admits no sign),
and the stats returned by `read_from_log` are exactly the pair returned by
`extract_r_values`. -/
theorem C5_metrics_nonneg (text : String) (stats : RefinementStats)
    (h : read_from_log text = .ok stats) :
    0 ≤ stats.r_work ∧ 0 ≤ stats.r_free ∧
    extract_r_values text = .ok (stats.r_work, stats.r_free) := by
  have hx : extract_r_values text = .ok (stats.r_work, stats.r_free) := by
    unfold read_from_log at h
    rcases hy : extract_r_values text with e | ⟨rw, rf⟩ <;> rw [hy] at h <;>
      dsimp only at h
    · cases h
    · cases h
      rfl
  obtain ⟨ha, hb⟩ := extract_ok_nonneg hx
  exact ⟨ha, hb, hx⟩

/-- Witness for C5 on a successfully parsed log text. -/
theorem C5_witness :
    0 ≤ (RefinementStats.mk 1 2).r_work ∧
    0 ≤ (RefinementStats.mk 1 2).r_free ∧
    extract_r_values "Final: R-work = 1 R-free = 2" =
      .ok ((RefinementStats.mk 1 2).r_work, (RefinementStats.mk 1 2).r_free) :=
  C5_metrics_nonneg "Final: R-work = 1 R-free = 2" ⟨1, 2⟩ rfl

/-- C6: `PhenixParams.format` produces, for every parameter record, the
token list containing exactly one `key=value` token:
`main.number_of_macro_cycles=` followed by the decimal rendering of the
macrocycle count. -/
theorem C6_format_token_list (p : PhenixParams) :
    p.format =
      ["main.number_of_macro_cycles=" ++ toString p.number_of_macrocycles] ∧
    p.format.length = 1 :=
  ⟨rfl, rfl⟩

/-- C9: there is a text on which the regular expression matches (both
labeled fields present) and yet `extract_r_values` raises a `ValueError`,
because `[0-9.]+` can capture `1.2.3`, which `float` rejects. -/
theorem C9_match_but_float_fails :
    reSearchRwRf ("R-work = 1.2.3 R-free = 0.2").data =
      some ("1.2.3".data, "0.2".data) ∧
    pyFloatQ "1.2.3" = none ∧
    extract_r_values "R-work = 1.2.3 R-free = 0.2" =
      .error (.valueError "could not convert string to float: 1.2.3") :=
  ⟨by decide, rfl, rfl⟩

/-- C10: a `PhenixParams` constructed without arguments has macrocycle
count 3, and `PhenixParams().format()` is exactly
`["main.number_of_macro_cycles=3"]`. -/
theorem C10_default_macrocycles :
    ({} : PhenixParams).number_of_macrocycles = 3 ∧
    PhenixParams.format {} = ["main.number_of_macro_cycles=3"] := by
  refine ⟨rfl, by decide⟩

/-- The effect trace of every `phenixrefine` call has one of three shapes:
stop at the return-code check, stop after the copy, or run to the end. -/
theorem phenixrefine_trace_cases (env : PhenixEnv) (p : PhenixParams) :
    (phenixrefine env p).1 = preTrace p ++ [.removeTmpDir] ∨
    (phenixrefine env p).1 = preTrace p ++ [copyEff, .removeTmpDir] ∨
    (phenixrefine env p).1 =
      preTrace p ++ [copyEff] ++ readEffs ++ [.removeTmpDir] := by
  unfold phenixrefine
  by_cases h1 : env.returncode ≠ 0
  · left
    rw [if_pos h1]
  · rw [if_neg h1]
    by_cases h2 : ¬ env.logExists
    · left
      rw [if_pos h2]
    · rw [if_neg h2]
      by_cases h3 : ¬ env.pdbExists
      · right; left
        rw [if_pos h3]
      · rw [if_neg h3]
        by_cases h4 : ¬ env.mtzExists
        · right; left
          rw [if_pos h4]
        · rw [if_neg h4]
          right; right
          rcases read_from_log env.logText with ⟨⟨msg⟩⟩ | st <;> rfl

/-- C3: a nonzero subprocess exit status raises
`CalledProcessError(returncode, cmd=cmd)` carrying the return code and the
command, and the trace shows that none of the output files is read: the
result is the error, not a value. -/
theorem C3_nonzero_exit_propagates (env : PhenixEnv) (p : PhenixParams)
    (h : env.returncode ≠ 0) :
    (phenixrefine env p).2 =
      .error (.calledProcessError env.returncode (refineCmd p)) ∧
    ∀ n, Effect.readTmp n ∉ (phenixrefine env p).1 := by
  unfold phenixrefine
  rw [if_pos h]
  refine ⟨rfl, fun n => ?_⟩
  simp [preTrace]

/-- Witness for C3 with exit status 1. -/
theorem C3_witness :
    (phenixrefine ⟨1, false, false, false, ""⟩ {}).2 =
      .error (.calledProcessError 1 (refineCmd {})) ∧
    ∀ n, Effect.readTmp n ∉ (phenixrefine ⟨1, false, false, false, ""⟩ {}).1 :=
  C3_nonzero_exit_propagates ⟨1, false, false, false, ""⟩ {} (by decide)

/-- C4 counterexample: with exit status zero and the log file missing, the
failure is a `FileNotFoundError` raised by `shutil.copy` (which runs
before the assertions), not an assertion/value error — refuting the claim
that a missing output file is always surfaced by the existence
assertions. -/
theorem C4_counterexample :
    (phenixrefine ⟨0, true, true, false, ""⟩ {}).2 =
      .error (.fileNotFoundError ("tmpdir/" ++ refinement_log_name)) ∧
    ∀ e, (phenixrefine ⟨0, true, true, false, ""⟩ {}).2 = .error e →
      isAssertionOrValueError e = false := by
  refine ⟨rfl, fun e he => ?_⟩
  have h2 : Except.error (ε := RefineError) (α := RefineResult)
      (.fileNotFoundError ("tmpdir/" ++ refinement_log_name)) = .error e :=
    Eq.symm (rfl : (phenixrefine ⟨0, true, true, false, ""⟩ {}).2 =
      .error (.fileNotFoundError ("tmpdir/" ++ refinement_log_name))) |>.trans he
  injection h2 with h3
  rw [← h3]
  rfl

/-- C4 amended: with exit status zero, a missing refined-pdb or
refined-mtz file is surfaced as an `AssertionError` from the existence
assertions, but a missing log file is surfaced as a `FileNotFoundError`
from the `shutil.copy` step, which runs before the assertions. -/
theorem C4_missing_output_errors (env : PhenixEnv) (p : PhenixParams)
    (h0 : env.returncode = 0) :
    (env.logExists = false →
      (phenixrefine env p).2 =
        .error (.fileNotFoundError ("tmpdir/" ++ refinement_log_name))) ∧
    (env.logExists = true → env.pdbExists = false →
      (phenixrefine env p).2 = .error (.assertionError "refined_pdb.exists()")) ∧
    (env.logExists = true → env.pdbExists = true → env.mtzExists = false →
      (phenixrefine env p).2 = .error (.assertionError "refined_mtz.exists()")) := by
  refine ⟨fun hl => ?_, fun hl hp => ?_, fun hl hp hm => ?_⟩ <;>
    simp [phenixrefine, h0, hl]
  · simp [hp]
  · simp [hp, hm]

/-- Witness for C4 amended, at an environment with the log file missing. -/
theorem C4_witness :
    ((PhenixEnv.mk 0 true true false "").logExists = false →
      (phenixrefine (PhenixEnv.mk 0 true true false "") {}).2 =
        .error (.fileNotFoundError ("tmpdir/" ++ refinement_log_name))) ∧
    ((PhenixEnv.mk 0 true true false "").logExists = true →
      (PhenixEnv.mk 0 true true false "").pdbExists = false →
      (phenixrefine (PhenixEnv.mk 0 true true false "") {}).2 =
        .error (.assertionError "refined_pdb.exists()")) ∧
    ((PhenixEnv.mk 0 true true false "").logExists = true →
      (PhenixEnv.mk 0 true true false "").pdbExists = true →
      (PhenixEnv.mk 0 true true false "").mtzExists = false →
      (phenixrefine (PhenixEnv.mk 0 true true false "") {}).2 =
        .error (.assertionError "refined_mtz.exists()")) :=
  C4_missing_output_errors (PhenixEnv.mk 0 true true false "") {} rfl

/-- C7: every invocation runs exactly the command
`phenix.refine input.pdb input.mtz <flags>` in the temporary directory,
the only files it subsequently reads are the three outputs, and those
output names follow the `<input>_refine_001.<ext>` convention with input
stem `input`. -/
theorem C7_command_and_output_paths (env : PhenixEnv) (p : PhenixParams) :
    Effect.runProcess (["phenix.refine", "input.pdb", "input.mtz"] ++ p.format)
      "tmpdir" ∈ (phenixrefine env p).1 ∧
    (∀ n, Effect.readTmp n ∈ (phenixrefine env p).1 →
      n = refined_pdb_name ∨ n = refined_mtz_name ∨ n = refinement_log_name) ∧
    refined_pdb_name = "input" ++ "_refine_001" ++ ".pdb" ∧
    refined_mtz_name = "input" ++ "_refine_001" ++ ".mtz" ∧
    refinement_log_name = "input" ++ "_refine_001" ++ ".log" := by
  rcases phenixrefine_trace_cases env p with h | h | h <;> rw [h] <;>
    refine ⟨by simp [preTrace, refineCmd, input_pdb_name, input_mtz_name],
      fun n hn => ?_, by decide, by decide, by decide⟩
  · simp [preTrace, copyEff, readEffs] at hn
  · simp [preTrace, copyEff, readEffs] at hn
  · simp [preTrace, copyEff, readEffs] at hn
    tauto

/-- C8 counterexample: on a fully successful invocation the call copies
the log file to the hardcoded absolute path `/Users/tjlane/Desktop`, a
write outside the temporary directory — refuting the claim that no state
outside the temporary directory is modified. -/
theorem C8_counterexample :
    Effect.copyFile ("tmpdir/" ++ refinement_log_name) desktop_path ∈
      (phenixrefine ⟨0, true, true, true, "R-work = 1 R-free = 2"⟩ {}).1 ∧
    (phenixrefine ⟨0, true, true, true, "R-work = 1 R-free = 2"⟩ {}).2 =
      .ok ⟨refined_pdb_name, refined_mtz_name, ⟨1, 2⟩⟩ ∧
    modifiesOutsideTmp
      (.copyFile ("tmpdir/" ++ refinement_log_name) desktop_path) = true := by
  refine ⟨by decide, rfl, by decide⟩

/-- C8 amended: the temporary directory is removed at the end of every
invocation, normal or failing (the trace always ends in `removeTmpDir`),
but the copy of the log file to the hardcoded path
`/Users/tjlane/Desktop` — the only effect writing outside the temporary
directory — happens on every run that reaches the copy step. -/
theorem C8_tmpdir_removed_outside_copy (env : PhenixEnv) (p : PhenixParams) :
    (phenixrefine env p).1.getLast? = some .removeTmpDir ∧
    ∀ e ∈ (phenixrefine env p).1, modifiesOutsideTmp e = true → e = copyEff := by
  rcases phenixrefine_trace_cases env p with h | h | h <;> rw [h] <;>
    refine ⟨by simp [preTrace, copyEff, readEffs], fun e he hm => ?_⟩
  · simp [preTrace] at he
    rcases he with rfl | rfl | rfl | rfl <;>
      simp [modifiesOutsideTmp] at hm
  · simp [preTrace] at he
    rcases he with rfl | rfl | rfl | rfl | rfl <;>
      first
      | rfl
      | simp [modifiesOutsideTmp] at hm
  · simp [preTrace, readEffs] at he
    rcases he with rfl | rfl | rfl | rfl | rfl | rfl | rfl | rfl <;>
      first
      | rfl
      | simp [modifiesOutsideTmp] at hm

end Refwrap
